import Mathlib

/-!
Shallow embedding of the Rubric constraint validator
(`src/rubric/rux-parser.js`, `src/rubric/validate.js`) together with
theorems settling the frozen claims about its specification.

Conventions of the embedding:
* JS strings are Lean `String`s; `content.split('\n')` is represented by
  passing the list of lines directly.
* JS arrays of rule/violation objects are Lean lists; `push` during a scan
  becomes list concatenation in scan order.
* The file system is made explicit: a target file is `Option TargetFile`
  (`none` = `fs.existsSync` returned false), and the result of parsing the
  target with the external ECMAScript parser is `Option (List TargetNode)`
  (`none` = the parser threw, triggering the regex fallback).
-/

namespace Rubric

/-- The double-quote character (written via its code point). -/
def dquote : Char := Char.ofNat 34

/-- The single-quote character (written via its code point). -/
def squote : Char := Char.ofNat 39

/-! ## The regex fragment produced by `pattern.replace(/\*/g, '.*')`

Both `createImportConstraintVisitors` and the import scan of
`validateWithRegex` compile a denied-import pattern with
`new RegExp(deniedPattern.replace(/\*/g, '.*'))` and call `.test`.
No metacharacter is escaped and the expression is not anchored, so the
compiled expression is a sequence of three kinds of atoms: a literal
character, `.` (any one character, from an unescaped dot in the pattern),
and `.*` (any run of characters, from a `*` in the pattern).  `.test`
succeeds iff some substring of the candidate matches the whole sequence. -/

inductive Tok where
  | lit (c : Char)
  | anyOne
  | star
deriving DecidableEq, Repr

/-- Token sequence of `new RegExp(p.replace(/\*/g, '.*'))` for a pattern
whose characters are literals, `.` or `*` (see `safePatternChar`). -/
def compileDenied : List Char → List Tok
  | [] => []
  | c :: rest =>
      if c = '*' then Tok.star :: compileDenied rest
      else if c = '.' then Tok.anyOne :: compileDenied rest
      else Tok.lit c :: compileDenied rest

/-- Pattern characters for which `compileDenied` is an exact model of the
JS regex compilation: everything except the regex metacharacters that
`replace(/\*/g, '.*')` leaves unescaped (other than `.`, which is
modelled by `Tok.anyOne`). -/
def safePatternChar (c : Char) : Bool :=
  !(c ∈ ['[', ']', '(', ')', '+', '?', Char.ofNat 92, '^', '$',
         Char.ofNat 123, Char.ofNat 125, '|'])

/-- Anchored match: the token sequence consumes the whole string.  A
`star` atom (`.*`) matches an arbitrary run of characters, rendered here
as "some split works" — exactly the backtracking search a regex engine
performs. -/
def matchFull : List Tok → List Char → Bool
  | [], s => s.isEmpty
  | Tok.lit c :: ts, s =>
      match s with
      | [] => false
      | d :: ds => c == d && matchFull ts ds
  | Tok.anyOne :: ts, s =>
      match s with
      | [] => false
      | _ :: ds => matchFull ts ds
  | Tok.star :: ts, s =>
      (List.range (s.length + 1)).any (fun k => matchFull ts (s.drop k))

/-- Match of the token sequence against some prefix of the string. -/
def matchPrefix (ts : List Tok) (s : List Char) : Bool :=
  (List.range (s.length + 1)).any (fun k => matchFull ts (s.take k))

/-- Unanchored search, the semantics of JS `RegExp.prototype.test`:
the tokens match starting at some position of the string. -/
def testUnanchored (ts : List Tok) (s : List Char) : Bool :=
  (List.range (s.length + 1)).any (fun i => matchPrefix ts (s.drop i))

/-- Embedding of `new RegExp(pattern.replace(/\*/g, '.*')).test(candidate)`. -/
def regexTest (pattern candidate : String) : Bool :=
  testUnanchored (compileDenied pattern.data) candidate.data

/-! ## The matcher described by the spec's own words (§4.1)

"escape all regex metacharacters in literal segments, replace `*` with a
match-any-characters expression, anchor the whole expression"; the full
candidate must satisfy it.  Escaping makes every non-`*` character a
literal, so the compiled form uses only `Tok.lit` and `Tok.star`. -/
def specCompile : List Char → List Tok
  | [] => []
  | c :: rest =>
      if c = '*' then Tok.star :: specCompile rest
      else Tok.lit c :: specCompile rest

/-- `matches(pattern, candidate)` as the spec describes it. -/
def specMatches (pattern candidate : String) : Bool :=
  matchFull (specCompile pattern.data) candidate.data

/-! ## Generic string helpers (JS `includes`, `indexOf`, `trim`, …)

All string utilities are defined over the character list `String.data`,
so that every definition in this file evaluates by kernel reduction. -/

/-- The JS `\s` whitespace class (tab, LF, VT, FF, CR, space). -/
def isWSChar (c : Char) : Bool :=
  c == ' ' || c == Char.ofNat 9 || c == Char.ofNat 10 ||
  c == Char.ofNat 11 || c == Char.ofNat 12 || c == Char.ofNat 13

/-- `[A-Za-z0-9_]`, the JS `\w` class. -/
def isWordChar (c : Char) : Bool :=
  ('a' ≤ c && c ≤ 'z') || ('A' ≤ c && c ≤ 'Z') || ('0' ≤ c && c ≤ '9') || c == '_'

/-- JS `s.trim()`. -/
def jsTrim (s : String) : String :=
  String.mk (((s.data.dropWhile isWSChar).reverse.dropWhile isWSChar).reverse)

/-- JS `s.startsWith(p)`. -/
def sStartsWith (s p : String) : Bool :=
  p.data.isPrefixOf s.data

/-- JS `s.length`. -/
def sLength (s : String) : Nat :=
  s.data.length

/-- Emptiness of a string. -/
def sIsEmpty (s : String) : Bool :=
  s.data.isEmpty

/-- JS `s.split(',')` (helper recursion). -/
def splitCommaAux : List Char → List Char → List (List Char)
  | [], cur => [cur.reverse]
  | c :: t, cur => if c == ',' then cur.reverse :: splitCommaAux t [] else splitCommaAux t (c :: cur)

/-- JS `s.split(',')`. -/
def splitOnComma (s : String) : List String :=
  (splitCommaAux s.data []).map String.mk

/-- JS `hay.includes(needle)` on char lists. -/
def containsL (needle : List Char) : List Char → Bool
  | [] => needle.isEmpty
  | c :: t => needle.isPrefixOf (c :: t) || containsL needle t

/-- JS `hay.includes(needle)`. -/
def strContains (hay needle : String) : Bool :=
  containsL needle.data hay.data

/-- Index of the first occurrence of `needle` (the remaining length when
absent; every use below is guarded so that `needle` is present). -/
def idxOfSub (needle : List Char) : List Char → Nat
  | [] => 0
  | c :: t => if needle.isPrefixOf (c :: t) then 0 else 1 + idxOfSub needle t

/-- JS `hay.indexOf(needle)` (under a guard ensuring presence). -/
def strIndexOf (hay needle : String) : Nat :=
  idxOfSub needle.data hay.data

/-- JS `hay.indexOf(c)` for a single character (under a presence guard). -/
def charIndexOf (hay : String) (c : Char) : Nat :=
  idxOfSub [c] hay.data

/-- JS `hay.lastIndexOf(c)` (under a presence guard). -/
def lastIndexOfChar (hay : String) (c : Char) : Nat :=
  hay.data.length - 1 - idxOfSub [c] hay.data.reverse

/-! ## Data model: rule sets and violations -/

inductive Severity where
  | error
  | warning
deriving DecidableEq, Repr

/-- The `type` field of a violation object. -/
inductive VioType where
  | constraintTy
  | importTy
  | exportTy
  | operationTy
  | missingTy
deriving DecidableEq, Repr

/-- One violation object as pushed by the evaluator
(`module`/`file` are attached by the out-of-scope CLI layer). -/
structure Violation where
  vtype : VioType
  severity : Severity
  message : String
  line : Nat
deriving DecidableEq, Repr

/-- A `comparison` object from the grammar: `{ op, value }` where the
grammar's `ComparisonValue` is a parsed number (`parseInt` of the digit
run), so `value` is a natural number. -/
structure Comparison where
  op : String
  value : Nat
deriving DecidableEq, Repr

/-- One entry of `constraints.require/deny/warn` as built by
`processConstraints`: `{ pattern, comparison, comment, exceptions }`,
plus the `patterns` array used by the deny-exports variant. -/
structure Constraint where
  pattern : String
  comparison : Option Comparison := none
  comment : Option String := none
  patterns : Option (List String) := none
  exceptions : List String := []
deriving DecidableEq, Repr

/-- One entry of `allowedImports`: `{ path, alias, exceptions }`
(the alias object is opaque to every claim, kept as an optional string). -/
structure AllowedImport where
  path : String
  aliasValue : Option String := none
  exceptions : List String := []
deriving DecidableEq, Repr

structure Constraints where
  require : List Constraint := []
  deny : List Constraint := []
  warn : List Constraint := []
deriving DecidableEq, Repr

/-- The canonical Rule Set built by `extractRulesFromAST` (the
`interface`/`state` sub-objects are never read by
`validateFileAgainstRules` or by the merge step and are omitted). -/
structure RuleSet where
  moduleName : String := ""
  typeStr : String := "" -- source field name: `type`
  location : String := ""
  allowedImports : List AllowedImport := []
  deniedImports : List String := []
  deniedOperations : List String := []
  constraints : Constraints := {}
deriving DecidableEq, Repr

def emptyRuleSet : RuleSet := {}

/-! ## Rule extraction: `processImports`, `processConstraints` -/

/-- A rule of the `imports` block of the module AST. -/
inductive ImportRuleAst where
  | allowRule (path : String) (aliasValue : Option String) (exceptions : List String)
  | denyRule (patterns : List String) (exceptions : List String)
deriving DecidableEq, Repr

/-- `processImports`: allow rules are pushed onto `allowedImports`
(keeping their exception list); deny rules flatten their `patterns` into
`deniedImports` — their `exceptions` array is not read at all. -/
def processImports (irules : List ImportRuleAst) (rules : RuleSet) : RuleSet :=
  irules.foldl
    (fun r ir =>
      match ir with
      | ImportRuleAst.allowRule path al exc =>
          { r with allowedImports :=
              r.allowedImports ++ [{ path := path, aliasValue := al, exceptions := exc }] }
      | ImportRuleAst.denyRule pats _exc =>
          { r with deniedImports := r.deniedImports ++ pats })
    rules

/-- A rule of the `constraints` block of the module AST
(the node types handled by the `switch` of `processConstraints`). -/
inductive ConstraintRuleAst where
  | annot (text : String)
  | requireRule (pattern : String) (comparison : Option Comparison)
      (comment : Option String) (exceptions : List String)
  | denyConstraintRule (pattern : String) (comparison : Option Comparison)
      (comment : Option String) (exceptions : List String)
  | warnRule (pattern : String) (comparison : Option Comparison)
      (comment : Option String) (exceptions : List String)
  | denyExportsRule (patterns : List String) (exceptions : List String)
  | denyImportsRule (patterns : List String) (exceptions : List String)
deriving DecidableEq, Repr

/-- `processConstraints`: lowers constraint rules into the rule set; a
deny constraint whose pattern starts with `io.` or `pattern.` is also
duplicated into `deniedOperations`. -/
def processConstraints (constraintRules : List ConstraintRuleAst) (rules : RuleSet) : RuleSet :=
  constraintRules.foldl
    (fun r cr =>
      match cr with
      | ConstraintRuleAst.annot _ => r
      | ConstraintRuleAst.requireRule pat cmp cm exc =>
          { r with constraints :=
              { r.constraints with require := r.constraints.require ++
                  [{ pattern := pat, comparison := cmp, comment := cm, exceptions := exc }] } }
      | ConstraintRuleAst.denyConstraintRule pat cmp cm exc =>
          let r := { r with constraints :=
              { r.constraints with deny := r.constraints.deny ++
                  [{ pattern := pat, comparison := cmp, comment := cm, exceptions := exc }] } }
          if sStartsWith pat "io." || sStartsWith pat "pattern." then
            { r with deniedOperations := r.deniedOperations ++ [pat] }
          else r
      | ConstraintRuleAst.warnRule pat cmp cm exc =>
          { r with constraints :=
              { r.constraints with warn := r.constraints.warn ++
                  [{ pattern := pat, comparison := cmp, comment := cm, exceptions := exc }] } }
      | ConstraintRuleAst.denyExportsRule pats exc =>
          { r with constraints :=
              { r.constraints with deny := r.constraints.deny ++
                  [{ pattern := "exports", patterns := some pats, exceptions := exc }] } }
      | ConstraintRuleAst.denyImportsRule pats _exc =>
          { r with deniedImports := r.deniedImports ++ pats })
    rules

/-! ## Rule merging (`validate.js`, `run`)

Both merge sites append every array field of the second operand onto the
first: `rules.constraints.require.push(...base.constraints.require)` etc.
Non-array fields (name/type/location/allowedImports) keep the first
operand's values. -/
def mergeRules (rules base : RuleSet) : RuleSet :=
  { rules with
    constraints :=
      { require := rules.constraints.require ++ base.constraints.require
        deny := rules.constraints.deny ++ base.constraints.deny
        warn := rules.constraints.warn ++ base.constraints.warn }
    deniedImports := rules.deniedImports ++ base.deniedImports
    deniedOperations := rules.deniedOperations ++ base.deniedOperations }

/-! ## Target file AST

`traverse` walks the target syntax tree depth-first and fires the single
visitor registered for each node's `type`.  The embedding lists the nodes
in traversal order, keeping exactly the fields the visitors read. -/
inductive TargetNode where
  /-- A `CallExpression`: whether `callee.type === 'MemberExpression'`,
  the value of `callee.object.name` (none when the object has no `name`),
  and `loc.start.line`. -/
  | callExpr (calleeIsMember : Bool) (calleeObjectName : Option String) (line : Nat)
  /-- An `ImportDeclaration`: `source.value` and `loc.start.line`. -/
  | importDecl (sourceValue : String) (line : Nat)
  /-- A `JSXOpeningElement`: `name.name` and the names of its
  `JSXAttribute` attributes, plus `loc.start.line`. -/
  | jsxOpeningElement (name : String) (attributeNames : List String) (line : Nat)
  /-- Any node of a type with no registered visitor. -/
  | otherNode
deriving DecidableEq, Repr

/-! ## AST-based validation (`validateWithAST` and its visitor factories) -/

/-- The `CallExpression` handlers from `createDenyConstraintVisitors`:
one per deny constraint whose pattern starts with `io.console`; each
fires on a call whose callee is a member access on identifier `console`.
The reported line is `context.lines.slice(0, node.loc.start.line).length`. -/
def consoleCallViolations (deny : List Constraint) (lines : List String) :
    TargetNode → List Violation
  | TargetNode.callExpr isMember objName line =>
      if isMember && objName == some "console" then
        (deny.filter (fun c => sStartsWith c.pattern "io.console")).map
          (fun c =>
            { vtype := VioType.constraintTy
              severity := Severity.error
              message := "Console operations are denied (" ++ c.pattern ++ ")"
              line := (lines.take line).length })
      else []
  | _ => []

/-- The `JSXOpeningElement` handler from `createRequiredConstraintVisitors`:
installed when some require constraint has pattern `pattern.accessibility`;
warns on an element with no `aria-` attribute, except `div` elements. -/
def accessibilityViolations (require : List Constraint) :
    TargetNode → List Violation
  | TargetNode.jsxOpeningElement name attrs line =>
      if require.any (fun c => c.pattern == "pattern.accessibility") then
        if !(attrs.any (fun a => sStartsWith a "aria-")) && name != "div" then
          [{ vtype := VioType.constraintTy
             severity := Severity.warning
             message := "Missing accessibility attributes (pattern.accessibility)"
             line := line }]
        else []
      else []
  | _ => []

/-- The `ImportDeclaration` handler from `createImportConstraintVisitors`:
tests the import path against every denied pattern via
`new RegExp(deniedPattern.replace(/\*/g, '.*')).test(importPath)`. -/
def deniedImportViolations (deniedImports : List String) :
    TargetNode → List Violation
  | TargetNode.importDecl path line =>
      deniedImports.filterMap
        (fun p =>
          if regexTest p path then
            some { vtype := VioType.importTy
                   severity := Severity.error
                   message := "Import from " ++ dquote.toString ++ path ++
                     dquote.toString ++ " is denied"
                   line := line }
          else none)
  | _ => []

/-- All violations a single node contributes (the three visitor maps are
keyed on disjoint node types, so at most one summand is non-empty). -/
def astNodeViolations (rules : RuleSet) (lines : List String)
    (n : TargetNode) : List Violation :=
  consoleCallViolations rules.constraints.deny lines n ++
  accessibilityViolations rules.constraints.require n ++
  deniedImportViolations rules.deniedImports n

/-- `validateWithAST(ast, content, rules)`: traverse the tree and
accumulate the violations pushed by each visitor, in traversal order. -/
def validateWithAST (nodes : List TargetNode) (lines : List String)
    (rules : RuleSet) : List Violation :=
  nodes.foldl (fun acc n => acc ++ astNodeViolations rules lines n) []

/-! ## Regex-based fallback validation (`validateWithRegex`) -/

/-- Drop a literal token, or fail. -/
def dropLit (lit l : List Char) : Option (List Char) :=
  if lit.isPrefixOf l then some (l.drop lit.length) else none

/-- Consume one or more characters satisfying `p` (greedy), or fail. -/
def dropMany1 (p : Char → Bool) : List Char → Option (List Char)
  | [] => none
  | c :: t => if p c then some (t.dropWhile p) else none

/-- Characters before the first quote of either kind, together with the
rest of the input starting at that quote; fails when no quote follows. -/
def takeUntilQuote : List Char → Option (List Char × List Char)
  | [] => none
  | c :: t =>
      if c == dquote || c == squote then some ([], c :: t)
      else
        match takeUntilQuote t with
        | some (cap, rest) => some (c :: cap, rest)
        | none => none

/-- Try the `from`-import regex at the start of `l`, returning the
captured path on success. -/
def fromMatchAt (l : List Char) : Option (List Char) :=
  match dropLit ("from".data) l with
  | none => none
  | some r1 =>
      match dropMany1 isWSChar r1 with
      | none => none
      | some r2 =>
          match r2 with
          | [] => none
          | q :: r3 =>
              if q == dquote || q == squote then
                match takeUntilQuote r3 with
                | some (cap, _ :: _) => if cap.isEmpty then none else some cap
                | _ => none
              else none

/-- Leftmost match of the `from`-import regex (JS `String.prototype.match`
returns the first match). -/
def fromMatchSearch : List Char → Option (List Char)
  | [] => none
  | c :: t =>
      match fromMatchAt (c :: t) with
      | some cap => some cap
      | none => fromMatchSearch t

/-- The import path captured from a source line, if any. -/
def extractFromPath (line : String) : Option String :=
  (fromMatchSearch line.data).map (fun l => String.mk l)

/-- Import scan of `validateWithRegex`: lines containing `import ` whose
`from`-clause path matches a denied pattern. -/
def regexImportViolations (deniedImports : List String) (lines : List String) :
    List Violation :=
  lines.enum.foldl
    (fun acc p =>
      acc ++
      (if strContains p.2 "import " then
        match extractFromPath p.2 with
        | some importPath =>
            deniedImports.filterMap
              (fun dp =>
                if regexTest dp importPath then
                  some { vtype := VioType.importTy
                         severity := Severity.error
                         message := "Import from " ++ dquote.toString ++ importPath ++
                           dquote.toString ++ " is denied"
                         line := p.1 + 1 }
                else none)
        | none => []
      else []))
    []

/-- Denied-operation scan of `validateWithRegex`: each operation pattern
containing `console` flags every line containing `console.`; each one
containing `localStorage` flags every line containing `localStorage`. -/
def deniedOperationViolations (ops : List String) (lines : List String) :
    List Violation :=
  ops.foldl
    (fun acc op =>
      acc ++
      (if strContains op "console" then
        lines.enum.foldl
          (fun acc2 p =>
            acc2 ++
            (if strContains p.2 "console." then
              [{ vtype := VioType.operationTy
                 severity := Severity.error
                 message := "Console operations are denied (" ++ op ++ ")"
                 line := p.1 + 1 }]
            else []))
          []
      else []) ++
      (if strContains op "localStorage" then
        lines.enum.foldl
          (fun acc2 p =>
            acc2 ++
            (if strContains p.2 "localStorage" then
              [{ vtype := VioType.operationTy
                 severity := Severity.error
                 message := "localStorage operations are denied"
                 line := p.1 + 1 }]
            else []))
          []
      else []))
    []

/-- Deny-constraint scan of `validateWithRegex`: the `io.*` pattern flags
`alert(`/`document.`/`window.` lines; an `exports` constraint with a
`patterns` array flags `export ` lines containing `_` when some entry is
`_*`. -/
def denyRegexViolations (deny : List Constraint) (lines : List String) :
    List Violation :=
  deny.foldl
    (fun acc c =>
      acc ++
      (if c.pattern == "io.*" then
        lines.enum.foldl
          (fun acc2 p =>
            acc2 ++
            (if strContains p.2 "alert(" || strContains p.2 "document." ||
                strContains p.2 "window." then
              [{ vtype := VioType.constraintTy
                 severity := Severity.error
                 message := "IO operations are denied (" ++ c.pattern ++ ")"
                 line := p.1 + 1 }]
            else []))
          []
      else []) ++
      (if c.pattern == "exports" then
        match c.patterns with
        | some pats =>
            lines.enum.foldl
              (fun acc2 p =>
                acc2 ++
                (if sStartsWith p.2 "export " then
                  pats.foldl
                    (fun acc3 pat =>
                      acc3 ++
                      (if pat == "_*" && strContains p.2 "_" then
                        [{ vtype := VioType.exportTy
                           severity := Severity.error
                           message := "Exports starting with underscore are denied"
                           line := p.1 + 1 }]
                      else []))
                    []
                else []))
              []
        | none => []
      else []))
    []

/-- Line-count scan of `validateWithRegex`: only `warn` constraints on
pattern `file.lines` carrying a comparison are consulted, and the check
is `lines.length > parseInt(comparison.value)` — the comparison operator
itself is never read. -/
def warnLineCountViolations (warn : List Constraint) (lines : List String) :
    List Violation :=
  warn.foldl
    (fun acc c =>
      acc ++
      (if c.pattern == "file.lines" then
        match c.comparison with
        | some cmp =>
            if lines.length > cmp.value then
              [{ vtype := VioType.constraintTy
                 severity := Severity.warning
                 message := "File exceeds " ++ toString cmp.value ++
                   " lines (has " ++ toString lines.length ++ ")"
                 line := lines.length }]
            else []
        | none => []
      else []))
    []

/-- Require scan of `validateWithRegex`: `pattern.accessibility` warns
when `content.includes('aria-')` is false (`aria-` contains no newline,
so containment in the joined content is containment in some line). -/
def requireRegexViolations (require : List Constraint) (lines : List String) :
    List Violation :=
  require.foldl
    (fun acc c =>
      acc ++
      (if c.pattern == "pattern.accessibility" then
        if !(lines.any (fun l => strContains l "aria-")) then
          [{ vtype := VioType.constraintTy
             severity := Severity.warning
             message := "Missing accessibility attributes (pattern.accessibility)"
             line := 1 }]
        else []
      else []))
    []

/-- `validateWithRegex(content, lines, rules)`: the five scans in source
order. -/
def validateWithRegex (lines : List String) (rules : RuleSet) : List Violation :=
  regexImportViolations rules.deniedImports lines ++
  deniedOperationViolations rules.deniedOperations lines ++
  denyRegexViolations rules.constraints.deny lines ++
  warnLineCountViolations rules.constraints.warn lines ++
  requireRegexViolations rules.constraints.require lines

/-! ## `validateFileAgainstRules` -/

/-- A target file on disk: its lines, and the result of parsing it with
the external ECMAScript parser (`none` = the parser threw). -/
structure TargetFile where
  lines : List String
  ast : Option (List TargetNode)
deriving DecidableEq, Repr

/-- `validateFileAgainstRules(filePath, rules)`: a missing file
short-circuits to a single `missing` error; otherwise AST validation
runs when the target parses, and the regex fallback when it does not. -/
def validateFileAgainstRules (target : Option TargetFile) (rules : RuleSet) :
    List Violation :=
  match target with
  | none =>
      [{ vtype := VioType.missingTy
         severity := Severity.error
         message := "File does not exist"
         line := 0 }]
  | some f =>
      match f.ast with
      | some nodes => validateWithAST nodes f.lines rules
      | none => validateWithRegex f.lines rules

/-! ## Recovery-mode diagnostics (`findCommonSyntaxErrors`, `isInBlock`) -/

/-- A parse diagnostic: `{ message, location: { start: { line, column } } }`. -/
structure SyntaxErr where
  message : String
  line : Nat
  column : Nat
deriving DecidableEq, Repr

/-- One step of `isInBlock`'s scan over a line: entering a block on a
line starting with `blockType + ' '` (or equal to it), and tracking
brace depth; leaving every block when depth returns to zero. -/
def isInBlockStep (blockType : String) (st : Int × Bool) (rawLine : String) :
    Int × Bool :=
  let line := jsTrim rawLine
  let inB := if sStartsWith line (blockType ++ " ") || line == blockType then true else st.2
  let depth := if strContains line "\x7b" then st.1 + 1 else st.1
  if strContains line "\x7d" then
    (depth - 1, if depth - 1 == 0 then false else inB)
  else (depth, inB)

/-- `isInBlock(lines, lineIndex, blockType)`. -/
def isInBlock (lines : List String) (lineIndex : Nat) (blockType : String) : Bool :=
  ((lines.take (lineIndex + 1)).foldl (isInBlockStep blockType) (0, false)).2

/-- Try `/function\s+\w+\s*\([^)]+\)/` at the start of `l` (the greedy
quantifiers need no backtracking here: each is followed by a character
its class excludes). -/
def fnParamsAt (l : List Char) : Bool :=
  match dropLit ("function".data) l with
  | none => false
  | some r1 =>
      match dropMany1 isWSChar r1 with
      | none => false
      | some r2 =>
          match dropMany1 isWordChar r2 with
          | none => false
          | some r3 =>
              match r3.dropWhile isWSChar with
              | '(' :: c :: t => c != ')' && t.contains ')'
              | _ => false

/-- Unanchored search for `/function\s+\w+\s*\([^)]+\)/`. -/
def fnParamsSearch : List Char → Bool
  | [] => false
  | c :: t => fnParamsAt (c :: t) || fnParamsSearch t

/-- Remainders after an optional alternative group `(a|b|…)?`: the input
itself (group empty) and the input minus any alternative prefixing it. -/
def optAlts (alts : List (List Char)) (l : List Char) : List (List Char) :=
  l :: alts.filterMap (fun a => dropLit a l)

/-- Tail `\w+\s*:\s*\w+\s*=\s*` of the state-initializer regex. -/
def stateInitTail (r3 : List Char) : Bool :=
  match dropMany1 isWordChar r3 with
  | none => false
  | some r4 =>
      match r4.dropWhile isWSChar with
      | ':' :: r5 =>
          match dropMany1 isWordChar (r5.dropWhile isWSChar) with
          | none => false
          | some r6 =>
              match r6.dropWhile isWSChar with
              | '=' :: _ => true
              | _ => false
      | _ => false

/-- `/^\s*(private|protected|public)?\s*(static)?\s*(readonly)?\s*\w+\s*:\s*\w+\s*=\s*/`
tried on the whole (trimmed) line, with the optional groups resolved by
backtracking. -/
def stateInitMatch (l : List Char) : Bool :=
  (optAlts ["private".data, "protected".data, "public".data]
      (l.dropWhile isWSChar)).any (fun r1 =>
    (optAlts ["static".data] (r1.dropWhile isWSChar)).any (fun r2 =>
      (optAlts ["readonly".data] (r2.dropWhile isWSChar)).any (fun r3 =>
        stateInitTail (r3.dropWhile isWSChar))))

/-- `/^\s*(private|protected|public)?\s*\w+\s*$/` on the trimmed line. -/
def stateMissingTypeMatch (l : List Char) : Bool :=
  (optAlts ["private".data, "protected".data, "public".data]
      (l.dropWhile isWSChar)).any (fun r1 =>
    match dropMany1 isWordChar (r1.dropWhile isWSChar) with
    | none => false
    | some r2 => (r2.dropWhile isWSChar).isEmpty)

/-- Characters strictly before the first occurrence of `stop`; `none`
when `stop` is absent. -/
def takeBefore (stop : Char) : List Char → Option (List Char)
  | [] => none
  | c :: t => if c == stop then some [] else (takeBefore stop t).map (fun r => c :: r)

/-- First match of `/\[([^\]]+)\]/`: the non-empty run between a `[` and
the next `]` (an empty pair `[]` makes the engine search on). -/
def bracketCapture : List Char → Option (List Char)
  | [] => none
  | c :: t =>
      if c == '[' then
        match takeBefore ']' t with
        | some cap => if cap.isEmpty then bracketCapture t else some cap
        | none => none
      else bracketCapture t

/-- All diagnostics the heuristic battery emits for one line
(`findCommonSyntaxErrors`'s `forEach` body, checks in source order). -/
def lineChecks (lines : List String) (index : Nat) (line : String) : List SyntaxErr :=
  let lineNum := index + 1
  let trimmed := jsTrim line
  (if sStartsWith trimmed ("@ " ++ dquote.toString) ||
      sStartsWith trimmed ("@" ++ dquote.toString) then
    [{ message := "Annotations should not be quoted", line := lineNum,
       column := charIndexOf line '@' + 1 }]
  else []) ++
  (if sStartsWith trimmed "type:" && !(strContains trimmed dquote.toString) &&
      !(strContains trimmed squote.toString) then
    [{ message := "type value must be quoted", line := lineNum,
       column := charIndexOf line ':' + 2 }]
  else []) ++
  (if sStartsWith trimmed "location:" && !(strContains trimmed dquote.toString) &&
      !(strContains trimmed squote.toString) then
    [{ message := "location value must be quoted", line := lineNum,
       column := charIndexOf line ':' + 2 }]
  else []) ++
  (if sStartsWith trimmed "version:" && !(strContains trimmed dquote.toString) &&
      !(strContains trimmed squote.toString) then
    [{ message := "version value must be quoted", line := lineNum,
       column := charIndexOf line ':' + 2 }]
  else []) ++
  (if strContains trimmed "function" && strContains trimmed "(" &&
      !(strContains trimmed "()") && fnParamsSearch trimmed.data then
    [{ message := "Functions in interface should not have parameters, use empty parentheses ()",
       line := lineNum, column := charIndexOf line '(' + 1 }]
  else []) ++
  (if strContains trimmed "<" && strContains trimmed ">" &&
      !(strContains trimmed ">=") && !(strContains trimmed "<=") then
    [{ message := "Generic type syntax (e.g., Array<Type>) is not supported",
       line := lineNum, column := charIndexOf line '<' + 1 }]
  else []) ++
  (if stateInitMatch trimmed.data then
    [{ message := "State properties should not have initializers",
       line := lineNum, column := charIndexOf line '=' + 1 }]
  else []) ++
  (if strContains trimmed "|" && strContains trimmed ":" &&
      !(strContains trimmed "||") then
    (if charIndexOf trimmed '|' > charIndexOf trimmed ':' then
      [{ message := "Union types are not supported",
         line := lineNum, column := charIndexOf line '|' + 1 }]
    else [])
  else []) ++
  (if isInBlock lines index "constraints" && sStartsWith trimmed "allow " then
    [{ message := "'allow' is not valid in constraints block",
       line := lineNum, column := strIndexOf line "allow" + 1 }]
  else []) ++
  (if strContains trimmed ("as " ++ dquote.toString ++ "external" ++ dquote.toString) ||
      strContains trimmed ("as " ++ squote.toString ++ "external" ++ squote.toString) then
    [{ message := "'external' is a keyword and should not be quoted",
       line := lineNum, column := strIndexOf line "external" + 1 }]
  else []) ++
  (if isInBlock lines index "imports" && strContains trimmed "[" then
    match bracketCapture trimmed.data with
    | some cap =>
        (splitOnComma (String.mk cap)).foldl
          (fun acc item =>
            let cleanItem := jsTrim item
            acc ++
            (if (sStartsWith cleanItem "../" || sStartsWith cleanItem "./" ||
                 sStartsWith cleanItem "/") &&
                !(sStartsWith cleanItem (dquote.toString)) &&
                !(sStartsWith cleanItem (squote.toString)) then
              [{ message := "Paths in arrays should be quoted",
                 line := lineNum, column := strIndexOf line cleanItem + 1 }]
            else []))
          []
    | none => []
  else []) ++
  (if isInBlock lines index "state" && stateMissingTypeMatch trimmed.data then
    [{ message := "State property missing type declaration",
       line := lineNum, column := 1 }]
  else []) ++
  (if strContains trimmed " when " then
    [{ message := "Conditional constraints with 'when' are not supported",
       line := lineNum, column := strIndexOf line "when" + 1 }]
  else []) ++
  (if sStartsWith trimmed "@" && strContains trimmed (dquote.toString) &&
      lastIndexOfChar trimmed dquote < sLength trimmed - 1 then
    (let afterQuote :=
      jsTrim (String.mk (trimmed.data.drop (lastIndexOfChar trimmed dquote + 1)))
    if !(sIsEmpty afterQuote) && !(sStartsWith afterQuote "//") then
      [{ message := "Unexpected content after annotation",
         line := lineNum, column := lastIndexOfChar trimmed dquote + 2 }]
    else [])
  else [])

/-- `findCommonSyntaxErrors(content, lines)`: run the battery over every
line, accumulating diagnostics in order. -/
def findCommonSyntaxErrors (lines : List String) : List SyntaxErr :=
  lines.enum.foldl (fun acc p => acc ++ lineChecks lines p.1 p.2) []

/-- The `errors` list assembled by `parseRuxFileWithRecovery` when the
strict parse throws: the strict parser's structured error (modelled by
its message/line/column), then every heuristic diagnostic. -/
def recoveryErrors (strictError : SyntaxErr) (lines : List String) : List SyntaxErr :=
  [strictError] ++ findCommonSyntaxErrors lines

/-- A rule set with every constraint's exception list replaced by `e`
(used to show evaluation never reads the `exceptions` field). -/
def overwriteExceptions (e : List String) (r : RuleSet) : RuleSet :=
  { r with constraints :=
      { require := r.constraints.require.map (fun c => { c with exceptions := e })
        deny := r.constraints.deny.map (fun c => { c with exceptions := e })
        warn := r.constraints.warn.map (fun c => { c with exceptions := e }) } }

/-! ## General lemmas about the embedding -/

theorem foldl_append_eq {α β : Type} (f : α → List β) :
    ∀ (l : List α) (acc : List β),
      l.foldl (fun a x => a ++ f x) acc = acc ++ l.flatMap f := by
  intro l
  induction l with
  | nil => intro acc; simp
  | cons x t ih => intro acc; simp [List.foldl_cons, ih, List.append_assoc]

theorem validateWithAST_eq_flatMap (nodes : List TargetNode) (lines : List String)
    (rules : RuleSet) :
    validateWithAST nodes lines rules =
      nodes.flatMap (fun n => astNodeViolations rules lines n) := by
  unfold validateWithAST
  rw [foldl_append_eq]
  rfl

theorem regexImportViolations_nil (lines : List String) :
    regexImportViolations [] lines = [] := by
  unfold regexImportViolations
  rw [foldl_append_eq]
  simp only [List.nil_append]
  rw [List.flatMap_eq_nil_iff]
  intro p _
  split
  · cases extractFromPath p.2 <;> simp
  · rfl

/-! ## Substring characterization of the unanchored matcher -/

theorem matchPrefix_iff (ts : List Tok) (s : List Char) :
    matchPrefix ts s = true ↔
      ∃ mid post : List Char, s = mid ++ post ∧ matchFull ts mid = true := by
  unfold matchPrefix
  rw [List.any_eq_true]
  constructor
  · rintro ⟨k, _, hm⟩
    exact ⟨s.take k, s.drop k, (List.take_append_drop k s).symm, hm⟩
  · rintro ⟨mid, post, rfl, hm⟩
    refine ⟨mid.length, ?_, ?_⟩
    · rw [List.mem_range, List.length_append]; omega
    · rw [List.take_left]; exact hm

theorem testUnanchored_iff (ts : List Tok) (s : List Char) :
    testUnanchored ts s = true ↔
      ∃ pre rest : List Char, s = pre ++ rest ∧ matchPrefix ts rest = true := by
  unfold testUnanchored
  rw [List.any_eq_true]
  constructor
  · rintro ⟨i, _, hm⟩
    exact ⟨s.take i, s.drop i, (List.take_append_drop i s).symm, hm⟩
  · rintro ⟨pre, rest, rfl, hm⟩
    refine ⟨pre.length, ?_, ?_⟩
    · rw [List.mem_range, List.length_append]; omega
    · rw [List.drop_left]; exact hm

theorem regexTest_iff_substring (p s : String) :
    regexTest p s = true ↔
      ∃ pre mid post : List Char, s.data = pre ++ mid ++ post ∧
        matchFull (compileDenied p.data) mid = true := by
  unfold regexTest
  rw [testUnanchored_iff]
  constructor
  · rintro ⟨pre, rest, hs, hm⟩
    rw [matchPrefix_iff] at hm
    obtain ⟨mid, post, hrest, hm⟩ := hm
    exact ⟨pre, mid, post, by rw [hs, hrest, List.append_assoc], hm⟩
  · rintro ⟨pre, mid, post, hs, hm⟩
    refine ⟨pre, mid ++ post, by rw [hs, List.append_assoc], ?_⟩
    rw [matchPrefix_iff]
    exact ⟨mid, post, rfl, hm⟩

/-! ## Claim theorems -/

/-- C8: evaluating a missing target file returns exactly one violation,
of type `missing` and severity error, and no other rule is evaluated. -/
theorem c8_missing_target_single_violation (rules : RuleSet) :
    validateFileAgainstRules none rules =
      [{ vtype := VioType.missingTy, severity := Severity.error,
         message := "File does not exist", line := 0 }] := rfl

/-- C6: merging is pure per-field concatenation of the five array fields
(`require`, `deny`, `warn`, `deniedImports`, `deniedOperations`), merge
composition concatenates all three operands' fields in order (merge is
associative), and no array field ever shrinks after a merge. -/
theorem c6_merge_pure_concatenation (A B C : RuleSet) :
    ((mergeRules A B).constraints.require = A.constraints.require ++ B.constraints.require ∧
     (mergeRules A B).constraints.deny = A.constraints.deny ++ B.constraints.deny ∧
     (mergeRules A B).constraints.warn = A.constraints.warn ++ B.constraints.warn ∧
     (mergeRules A B).deniedImports = A.deniedImports ++ B.deniedImports ∧
     (mergeRules A B).deniedOperations = A.deniedOperations ++ B.deniedOperations) ∧
    mergeRules (mergeRules A B) C = mergeRules A (mergeRules B C) ∧
    ((mergeRules A (mergeRules B C)).constraints.require =
        A.constraints.require ++ B.constraints.require ++ C.constraints.require ∧
     (mergeRules A (mergeRules B C)).constraints.deny =
        A.constraints.deny ++ B.constraints.deny ++ C.constraints.deny ∧
     (mergeRules A (mergeRules B C)).constraints.warn =
        A.constraints.warn ++ B.constraints.warn ++ C.constraints.warn ∧
     (mergeRules A (mergeRules B C)).deniedImports =
        A.deniedImports ++ B.deniedImports ++ C.deniedImports ∧
     (mergeRules A (mergeRules B C)).deniedOperations =
        A.deniedOperations ++ B.deniedOperations ++ C.deniedOperations) ∧
    (A.constraints.require.length ≤ (mergeRules A B).constraints.require.length ∧
     B.constraints.require.length ≤ (mergeRules A B).constraints.require.length ∧
     A.constraints.deny.length ≤ (mergeRules A B).constraints.deny.length ∧
     B.constraints.deny.length ≤ (mergeRules A B).constraints.deny.length ∧
     A.constraints.warn.length ≤ (mergeRules A B).constraints.warn.length ∧
     B.constraints.warn.length ≤ (mergeRules A B).constraints.warn.length ∧
     A.deniedImports.length ≤ (mergeRules A B).deniedImports.length ∧
     B.deniedImports.length ≤ (mergeRules A B).deniedImports.length ∧
     A.deniedOperations.length ≤ (mergeRules A B).deniedOperations.length ∧
     B.deniedOperations.length ≤ (mergeRules A B).deniedOperations.length) := by
  refine ⟨⟨rfl, rfl, rfl, rfl, rfl⟩, ?_, ?_, ?_⟩
  · simp [mergeRules, List.append_assoc]
  · refine ⟨?_, ?_, ?_, ?_, ?_⟩ <;> simp [mergeRules, List.append_assoc]
  · simp only [mergeRules, List.length_append]
    refine ⟨?_, ?_, ?_, ?_, ?_, ?_, ?_, ?_, ?_, ?_⟩ <;> omega

/-- C9: evaluation results never depend on `allowedImports` — replacing
that field by anything leaves the violation list of both evaluation modes
(and of the missing-file path) unchanged; allow rules are extracted into
`allowedImports` but never enforced. -/
theorem c9_allowedImports_never_enforced :
    (∀ (target : Option TargetFile) (r : RuleSet) (a : List AllowedImport),
      validateFileAgainstRules target { r with allowedImports := a } =
        validateFileAgainstRules target r) ∧
    (∀ (r : RuleSet) (path : String) (al : Option String) (exc : List String),
      (processImports [ImportRuleAst.allowRule path al exc] r).allowedImports =
        r.allowedImports ++ [{ path := path, aliasValue := al, exceptions := exc }]) := by
  constructor
  · rintro (_ | ⟨lines, (_ | nodes)⟩) r a <;> rfl
  · intro r path al exc; rfl

/-- C4: with denied-import pattern `../services/*`, a target importing
from `../services/user` yields exactly one error violation of type
`import`, while a target importing from `../service` yields zero import
violations. -/
theorem c4_scenario_b :
    validateFileAgainstRules
        (some ⟨["import u from '../services/user'"],
               some [TargetNode.importDecl "../services/user" 1]⟩)
        { emptyRuleSet with deniedImports := ["../services/*"] } =
      [{ vtype := VioType.importTy, severity := Severity.error,
         message := "Import from \"../services/user\" is denied", line := 1 }] ∧
    validateFileAgainstRules
        (some ⟨["import u from '../service'"],
               some [TargetNode.importDecl "../service" 1]⟩)
        { emptyRuleSet with deniedImports := ["../services/*"] } = [] := by
  decide

/-- C5: under a deny constraint on `io.console.*`, a parsed target whose
only matching construct is a `console.log` call on line 3 yields exactly
one error violation whose message cites `io.console.*` and whose line is
3. -/
theorem c5_scenario_a :
    validateFileAgainstRules
        (some ⟨["const a = 1", "", "console.log(\"x\")"],
               some [TargetNode.otherNode, TargetNode.callExpr true (some "console") 3]⟩)
        (processConstraints
          [ConstraintRuleAst.denyConstraintRule "io.console.*" none none []]
          emptyRuleSet) =
      [{ vtype := VioType.constraintTy, severity := Severity.error,
         message := "Console operations are denied (io.console.*)", line := 3 }] ∧
    strContains "Console operations are denied (io.console.*)" "io.console.*" = true := by
  decide

/-! ## Exceptions are never read by any evaluator -/

theorem consoleCall_overwriteExc (e : List String) (deny : List Constraint)
    (lines : List String) (n : TargetNode) :
    consoleCallViolations (deny.map (fun c => { c with exceptions := e })) lines n =
      consoleCallViolations deny lines n := by
  cases n with
  | callExpr im obj line =>
      simp only [consoleCallViolations]
      rw [List.filter_map, List.map_map]
      rfl
  | importDecl p l => rfl
  | jsxOpeningElement a b c => rfl
  | otherNode => rfl

theorem accessibility_overwriteExc (e : List String) (require : List Constraint)
    (n : TargetNode) :
    accessibilityViolations (require.map (fun c => { c with exceptions := e })) n =
      accessibilityViolations require n := by
  cases n with
  | callExpr im obj line => rfl
  | importDecl p l => rfl
  | jsxOpeningElement a b c =>
      simp only [accessibilityViolations]
      rw [List.any_map]
      rfl
  | otherNode => rfl

theorem denyRegex_overwriteExc (e : List String) (deny : List Constraint)
    (lines : List String) :
    denyRegexViolations (deny.map (fun c => { c with exceptions := e })) lines =
      denyRegexViolations deny lines := by
  unfold denyRegexViolations
  rw [List.foldl_map]

theorem warnLineCount_overwriteExc (e : List String) (warn : List Constraint)
    (lines : List String) :
    warnLineCountViolations (warn.map (fun c => { c with exceptions := e })) lines =
      warnLineCountViolations warn lines := by
  unfold warnLineCountViolations
  rw [List.foldl_map]

theorem requireRegex_overwriteExc (e : List String) (require : List Constraint)
    (lines : List String) :
    requireRegexViolations (require.map (fun c => { c with exceptions := e })) lines =
      requireRegexViolations require lines := by
  unfold requireRegexViolations
  rw [List.foldl_map]

theorem astNode_overwriteExc (e : List String) (r : RuleSet) (lines : List String)
    (n : TargetNode) :
    astNodeViolations (overwriteExceptions e r) lines n = astNodeViolations r lines n := by
  unfold astNodeViolations
  rw [show (overwriteExceptions e r).constraints.deny =
        r.constraints.deny.map (fun c => { c with exceptions := e }) from rfl,
      show (overwriteExceptions e r).constraints.require =
        r.constraints.require.map (fun c => { c with exceptions := e }) from rfl,
      show (overwriteExceptions e r).deniedImports = r.deniedImports from rfl,
      consoleCall_overwriteExc, accessibility_overwriteExc]

theorem validateFile_overwriteExc (target : Option TargetFile) (r : RuleSet)
    (e : List String) :
    validateFileAgainstRules target (overwriteExceptions e r) =
      validateFileAgainstRules target r := by
  cases target with
  | none => rfl
  | some f =>
      cases f with
      | mk lines ast =>
          cases ast with
          | some nodes =>
              show validateWithAST nodes lines (overwriteExceptions e r) =
                validateWithAST nodes lines r
              rw [validateWithAST_eq_flatMap, validateWithAST_eq_flatMap]
              congr 1
              funext n
              exact astNode_overwriteExc e r lines n
          | none =>
              show validateWithRegex lines (overwriteExceptions e r) =
                validateWithRegex lines r
              unfold validateWithRegex
              rw [show (overwriteExceptions e r).deniedImports = r.deniedImports from rfl,
                  show (overwriteExceptions e r).deniedOperations = r.deniedOperations from rfl,
                  show (overwriteExceptions e r).constraints.deny =
                    r.constraints.deny.map (fun c => { c with exceptions := e }) from rfl,
                  show (overwriteExceptions e r).constraints.warn =
                    r.constraints.warn.map (fun c => { c with exceptions := e }) from rfl,
                  show (overwriteExceptions e r).constraints.require =
                    r.constraints.require.map (fun c => { c with exceptions := e }) from rfl,
                  denyRegex_overwriteExc, warnLineCount_overwriteExc,
                  requireRegex_overwriteExc]

/-- C1: the claimed exception suppression is never performed.  Exception
lists on deny-import rules are discarded by `processImports`; the
`exceptions` field of every constraint can be overwritten without
changing any evaluation result; and at the concrete failing input (rule
`deny imports ["../services/*"] except: ["../services/auth"]`, with a
target importing `../services/auth`, which matches both the pattern and the
exception under the spec's own matcher) both evaluation modes still emit
an import error. -/
theorem c1_exceptions_never_applied :
    (∀ (target : Option TargetFile) (r : RuleSet) (e : List String),
        validateFileAgainstRules target (overwriteExceptions e r) =
          validateFileAgainstRules target r) ∧
    (processImports [ImportRuleAst.denyRule ["../services/*"] ["../services/auth"]]
        emptyRuleSet = { emptyRuleSet with deniedImports := ["../services/*"] }) ∧
    specMatches "../services/*" "../services/auth" = true ∧
    specMatches "../services/auth" "../services/auth" = true ∧
    (validateFileAgainstRules
        (some ⟨["import x from '../services/auth'"],
               some [TargetNode.importDecl "../services/auth" 1]⟩)
        (processImports [ImportRuleAst.denyRule ["../services/*"] ["../services/auth"]]
          emptyRuleSet) =
      [{ vtype := VioType.importTy, severity := Severity.error,
         message := "Import from \"../services/auth\" is denied", line := 1 }]) ∧
    (validateFileAgainstRules
        (some ⟨["import x from '../services/auth'"], none⟩)
        (processImports [ImportRuleAst.denyRule ["../services/*"] ["../services/auth"]]
          emptyRuleSet) =
      [{ vtype := VioType.importTy, severity := Severity.error,
         message := "Import from \"../services/auth\" is denied", line := 1 }]) := by
  exact ⟨validateFile_overwriteExc, by decide, by decide, by decide, by decide, by decide⟩

/-! ## AST mode and `deniedOperations` -/

theorem astNode_no_operationTy (r : RuleSet) (lines : List String) (n : TargetNode) :
    (astNodeViolations r lines n).all (fun v => v.vtype != VioType.operationTy) = true := by
  cases n with
  | callExpr im obj line =>
      simp only [astNodeViolations, consoleCallViolations, accessibilityViolations,
        deniedImportViolations, List.append_nil]
      split
      · rw [List.all_eq_true]
        intro v hv
        rw [List.mem_map] at hv
        obtain ⟨c, _, rfl⟩ := hv
        rfl
      · rfl
  | importDecl p l =>
      simp only [astNodeViolations, consoleCallViolations, accessibilityViolations,
        deniedImportViolations, List.nil_append, List.append_nil]
      rw [List.all_eq_true]
      intro v hv
      rw [List.mem_filterMap] at hv
      obtain ⟨dp, _, hdp⟩ := hv
      by_cases h : regexTest dp p = true
      · rw [if_pos h] at hdp
        cases hdp
        rfl
      · rw [if_neg h] at hdp
        cases hdp
  | jsxOpeningElement a b c =>
      simp only [astNodeViolations, consoleCallViolations, accessibilityViolations,
        deniedImportViolations, List.nil_append, List.append_nil]
      split
      · split <;> rfl
      · rfl
  | otherNode => rfl

theorem validateWithAST_no_operationTy (nodes : List TargetNode) (lines : List String)
    (r : RuleSet) :
    (validateWithAST nodes lines r).all (fun v => v.vtype != VioType.operationTy) = true := by
  rw [validateWithAST_eq_flatMap, List.all_eq_true]
  intro v hv
  rw [List.mem_flatMap] at hv
  obtain ⟨n, _, hvn⟩ := hv
  have h := astNode_no_operationTy r lines n
  rw [List.all_eq_true] at h
  exact h v hvn

theorem consoleCall_filter_idem (deny : List Constraint) (lines : List String)
    (n : TargetNode) :
    consoleCallViolations
        (deny.filter (fun c => sStartsWith c.pattern "io.console")) lines n =
      consoleCallViolations deny lines n := by
  cases n with
  | callExpr im obj line =>
      simp only [consoleCallViolations]
      rw [List.filter_filter]
      simp only [Bool.and_self]
  | importDecl p l => rfl
  | jsxOpeningElement a b c => rfl
  | otherNode => rfl

/-- C10: `deniedOperations` is consulted only in regex-fallback mode.
In AST mode the field can be overwritten without changing the result, no
`operation`-type violation is ever produced, and only the deny
constraints whose pattern starts with `io.console` matter; concretely a
rule set whose `deniedOperations` holds a localStorage pattern yields no
violation for a parsed target referencing `localStorage`, while the same
rule set does flag it in fallback mode. -/
theorem c10_deniedOperations_fallback_only :
    (∀ (nodes : List TargetNode) (lines : List String) (r : RuleSet) (ops : List String),
        validateWithAST nodes lines { r with deniedOperations := ops } =
          validateWithAST nodes lines r) ∧
    (∀ (nodes : List TargetNode) (lines : List String) (r : RuleSet),
        (validateWithAST nodes lines r).all
          (fun v => v.vtype != VioType.operationTy) = true) ∧
    (∀ (nodes : List TargetNode) (lines : List String) (r : RuleSet),
        validateWithAST nodes lines
            { r with constraints :=
                { r.constraints with deny :=
                    r.constraints.deny.filter (fun c => sStartsWith c.pattern "io.console") } } =
          validateWithAST nodes lines r) ∧
    (validateWithAST [TargetNode.callExpr true (some "localStorage") 2]
        ["", "localStorage.setItem(k, v)"]
        { emptyRuleSet with deniedOperations := ["io.localStorage.*"] } = []) ∧
    (validateWithRegex ["localStorage.setItem(k, v)"]
        { emptyRuleSet with deniedOperations := ["io.localStorage.*"] } =
      [{ vtype := VioType.operationTy, severity := Severity.error,
         message := "localStorage operations are denied", line := 1 }]) := by
  refine ⟨fun nodes lines r ops => rfl, validateWithAST_no_operationTy, ?_, by decide, by decide⟩
  intro nodes lines r
  rw [validateWithAST_eq_flatMap, validateWithAST_eq_flatMap]
  congr 1
  funext n
  unfold astNodeViolations
  rw [show ({ r with constraints :=
        { r.constraints with deny :=
            r.constraints.deny.filter (fun c => sStartsWith c.pattern "io.console") } }
        : RuleSet).constraints.deny =
      r.constraints.deny.filter (fun c => sStartsWith c.pattern "io.console") from rfl,
    consoleCall_filter_idem]

/-! ## The line-count check -/

theorem deniedOperationViolations_nil (lines : List String) :
    deniedOperationViolations [] lines = [] := rfl

theorem denyRegexViolations_nil (lines : List String) :
    denyRegexViolations [] lines = [] := rfl

theorem requireRegexViolations_nil (lines : List String) :
    requireRegexViolations [] lines = [] := rfl

theorem validateWithRegex_warn_fileLines (op : String) (N : Nat) (lines : List String) :
    validateWithRegex lines
        { emptyRuleSet with constraints :=
            { warn := [{ pattern := "file.lines",
                         comparison := some { op := op, value := N } }] } } =
      (if lines.length > N then
        [{ vtype := VioType.constraintTy, severity := Severity.warning,
           message := "File exceeds " ++ toString N ++ " lines (has " ++
             toString lines.length ++ ")",
           line := lines.length }]
      else []) := by
  unfold validateWithRegex
  show regexImportViolations [] lines ++ deniedOperationViolations [] lines ++
      denyRegexViolations [] lines ++
      warnLineCountViolations
        [{ pattern := "file.lines", comparison := some { op := op, value := N } }] lines ++
      requireRegexViolations [] lines = _
  rw [regexImportViolations_nil, deniedOperationViolations_nil, denyRegexViolations_nil,
    requireRegexViolations_nil]
  simp only [List.nil_append, List.append_nil]
  unfold warnLineCountViolations
  simp only [List.foldl]
  rw [if_pos (show (("file.lines" : String) == "file.lines") = true from rfl)]
  simp only [List.nil_append]

/-- C2 counterexample: with `warn file.lines > 200` and a successfully
parsed 250-line target (so 250 > 200 holds), evaluation emits no
violation at all — the line-count check is not performed as a second
layer when structural parsing succeeds. -/
theorem c2_counterexample :
    validateFileAgainstRules
        (some ⟨List.replicate 250 "// x", some []⟩)
        { emptyRuleSet with constraints :=
            { warn := [{ pattern := "file.lines",
                         comparison := some { op := ">", value := 200 } }] } } = [] ∧
    (250 : Nat) > 200 := by
  exact ⟨rfl, by norm_num⟩

set_option maxRecDepth 10000 in
/-- C2 (amended): the whole-file line-count check runs only in
regex-fallback evaluation; there, only `warn` constraints on
`file.lines` are consulted and a warning is emitted exactly when the
line count exceeds the threshold, whatever the declared comparison
operator; the message reports both the threshold and the actual count.
Scenario D holds in fallback mode: 250 lines against `warn file.lines >
200` yield one warning whose message states both 200 and 250. -/
theorem c2_fileLines_fallback_only :
    (∀ (op : String) (N : Nat) (lines : List String),
        validateWithRegex lines
            { emptyRuleSet with constraints :=
                { warn := [{ pattern := "file.lines",
                             comparison := some { op := op, value := N } }] } } =
          (if lines.length > N then
            [{ vtype := VioType.constraintTy, severity := Severity.warning,
               message := "File exceeds " ++ toString N ++ " lines (has " ++
                 toString lines.length ++ ")",
               line := lines.length }]
          else [])) ∧
    (validateWithRegex (List.replicate 250 "x")
        { emptyRuleSet with constraints :=
            { warn := [{ pattern := "file.lines",
                         comparison := some { op := ">", value := 200 } }] } } =
      [{ vtype := VioType.constraintTy, severity := Severity.warning,
         message := "File exceeds 200 lines (has 250)", line := 250 }]) ∧
    strContains "File exceeds 200 lines (has 250)" "200" = true ∧
    strContains "File exceeds 200 lines (has 250)" "250" = true := by
  refine ⟨validateWithRegex_warn_fileLines, ?_, by decide, by decide⟩
  rw [validateWithRegex_warn_fileLines ">" 200 (List.replicate 250 "x")]
  decide

/-! ## Recovery-mode diagnostics -/

/-- C7: recovery scanning applies the heuristic battery to every line
and reports all matches — the error list is the strict parser's error
followed by the concatenation, over all lines, of each line's
diagnostics; concretely an unquoted `type: component` line yields a
"must be quoted" diagnostic at its line, and a later unquoted
`location:` line in the same file is still reported. -/
theorem c7_recovery_reports_all_matches :
    (∀ (e : SyntaxErr) (lines : List String),
        recoveryErrors e lines =
          e :: lines.enum.flatMap (fun p => lineChecks lines p.1 p.2)) ∧
    (findCommonSyntaxErrors
        ["module Foo \x7b", "type: component", "location: src/Foo.tsx", "\x7d"] =
      [{ message := "type value must be quoted", line := 2, column := 6 },
       { message := "location value must be quoted", line := 3, column := 10 }]) ∧
    strContains "type value must be quoted" "must be quoted" = true := by
  refine ⟨?_, by decide, by decide⟩
  intro e lines
  unfold recoveryErrors findCommonSyntaxErrors
  rw [foldl_append_eq]
  rfl

/-! ## Pattern compilation: unescaped and unanchored -/

/-- C3 counterexample: a violation is emitted although the full
candidate does not satisfy the escaped-and-anchored expression of the
spec: pattern `services` flags the import `Xservices/user` (substring
match), and the compiled `../service` accepts `ab/serviceX` because its
dots are unescaped and it is unanchored. -/
theorem c3_counterexample :
    validateWithAST [TargetNode.importDecl "Xservices/user" 4]
        ["import s from 'Xservices/user'"]
        { emptyRuleSet with deniedImports := ["services"] } =
      [{ vtype := VioType.importTy, severity := Severity.error,
         message := "Import from \"Xservices/user\" is denied", line := 4 }] ∧
    specMatches "services" "Xservices/user" = false ∧
    regexTest "../service" "ab/serviceX" = true ∧
    specMatches "../service" "ab/serviceX" = false := by
  decide

/-- C3 (amended): for denied-import patterns the compiled expression
replaces each `*` by `.*`, leaves every other character unescaped (an
unescaped `.` matches any single character) and is unanchored: the import
visitor emits a violation exactly when some substring of the
candidate matches the compiled expression, so partial and prefix matches
are flagged. -/
theorem c3_unanchored_substring_semantics (p s : String) (line : Nat)
    (_hp : p.data.all safePatternChar = true) :
    (deniedImportViolations [p] (TargetNode.importDecl s line) ≠ [] ↔
      regexTest p s = true) ∧
    (regexTest p s = true ↔
      ∃ pre mid post : List Char, s.data = pre ++ mid ++ post ∧
        matchFull (compileDenied p.data) mid = true) := by
  refine ⟨?_, regexTest_iff_substring p s⟩
  simp only [deniedImportViolations, List.filterMap]
  cases h : regexTest p s <;> simp [h]

/-- Witness for C3's amended theorem at pattern `../services/*` and
candidate `x../services/user`. -/
theorem c3_unanchored_substring_semantics_witness :
    (("../services/*" : String).data.all safePatternChar = true) ∧
    ((deniedImportViolations ["../services/*"]
        (TargetNode.importDecl "x../services/user" 2) ≠ [] ↔
      regexTest "../services/*" "x../services/user" = true) ∧
     (regexTest "../services/*" "x../services/user" = true ↔
      ∃ pre mid post : List Char,
        ("x../services/user" : String).data = pre ++ mid ++ post ∧
        matchFull (compileDenied ("../services/*" : String).data) mid = true)) :=
  ⟨by decide,
   c3_unanchored_substring_semantics "../services/*" "x../services/user" 2 (by decide)⟩

end Rubric
